import Mathlib

/-!
The VCS backends of ghq (`vcs.go`).

A shallow embedding of the four `VCSBackend` values of `vcs.go`
(`GitBackend`, `SubversionBackend`, `GitsvnBackend`, `MercurialBackend`).

The backends are effectful: they call `os.MkdirAll` and `utils.Run` /
`utils.RunInDir`.  The effects are modelled by explicit state passing over a
`World`: an arbitrary host state together with the trace of the requests made
so far.  The host (`Host`) says what each request returns and how it changes
the host state; the embedding of a backend only decides which requests are
made, in which order, and what is returned.

Go strings are modelled by `String`, Go's `error` by `Option ε` (`none` is
`nil`), `*url.URL` by an arbitrary type `υ` whose `String()` method is a field
of the host.
-/

namespace Ghq

/-! ## `path/filepath` (Unix: the separator is `/`, there is no volume name) -/

namespace filepath

/-- The constant `os.PathSeparator` on Unix. -/
def Separator : Char := '/'

/-- The function `os.IsPathSeparator` on Unix. -/
def IsPathSeparator (c : Char) : Bool := c == Separator

/-- The loop of `filepath.Split`,
`i := len(path) - 1; for i >= len(vol) && !os.IsPathSeparator(path[i]) { i-- }`,
with an empty volume name (Unix).  The argument and the result are `i + 1`. -/
def splitScan (path : List Char) : Nat → Nat
  | 0 => 0
  | i + 1 => if IsPathSeparator (path.getD i ' ') then i + 1 else splitScan path i

/-- The function `filepath.Split`: `return path[:i+1], path[i+1:]`.  Go indexes
bytes and this model characters; the separator is a one-byte character that
is never part of a longer UTF-8 sequence, so both cut at the same place. -/
def Split (path : String) : String × String :=
  let i := splitScan path.data path.data.length
  (String.mk (path.data.take i), String.mk (path.data.drop i))

end filepath

/-! ## The host: file system and process execution -/

/-- One call of the process runner: the working directory (`none` for
`utils.Run`, `some dir` for `utils.RunInDir`), the program and its arguments
(the program name is not part of `args`). -/
structure Invocation where
  dir : Option String
  command : String
  args : List String
deriving DecidableEq

/-- A request made to the host. -/
inductive Event where
  | MkdirAll (path : String) (perm : Nat)
  | Run (inv : Invocation)
deriving DecidableEq

/-- What the backends are run against.  `urlString` is `(*url.URL).String`,
`MkdirAll` is `os.MkdirAll`, and `Run` is the process runner: what
`utils.Run` (no working directory) and `utils.RunInDir` return for an
invocation.  `MkdirAll` and `Run` give the error (`none` for `nil`) and the
next host state, so they may succeed or fail in any way and depend on
everything done before. -/
structure Host (υ σ ε : Type) where
  urlString : υ → String
  MkdirAll : String → Nat → σ → Option ε × σ
  Run : Invocation → σ → Option ε × σ

/-- The host state and the requests made so far, oldest first. -/
structure World (σ : Type) where
  state : σ
  trace : List Event

section
variable {υ σ ε : Type}

/-- The call `os.MkdirAll(path, perm)`: recorded, then answered by the host. -/
def os.MkdirAll (h : Host υ σ ε) (path : String) (perm : Nat) (w : World σ) :
    Option ε × World σ :=
  let r := h.MkdirAll path perm w.state
  (r.1, { state := r.2, trace := w.trace ++ [Event.MkdirAll path perm] })

/-- Modelled from the spec: package `utils` is not among the sources; section 6
of the spec gives the process execution boundary as one capability
`run(workingDirectory optional-path, command, args) -> error`.  A call of it
is recorded in the trace, then answered by the host. -/
def utils.exec (h : Host υ σ ε) (inv : Invocation) (w : World σ) : Option ε × World σ :=
  let r := h.Run inv w.state
  (r.1, { state := r.2, trace := w.trace ++ [Event.Run inv] })

/-- Modelled from the spec: `utils.Run(command, args...)`, the process
execution capability of section 6 without a working directory. -/
def utils.Run (h : Host υ σ ε) (command : String) (args : List String) (w : World σ) :
    Option ε × World σ :=
  utils.exec h { dir := none, command := command, args := args } w

/-- Modelled from the spec: `utils.RunInDir(dir, command, args...)`, the process
execution capability of section 6 with working directory `dir`. -/
def utils.RunInDir (h : Host υ σ ε) (dir command : String) (args : List String)
    (w : World σ) : Option ε × World σ :=
  utils.exec h { dir := some dir, command := command, args := args } w

/-! ## `vcs.go` -/

/-- The struct `VCSBackend`. -/
structure VCSBackend (υ σ ε : Type) where
  Clone : υ → String → String → Bool → Bool → World σ → Option ε × World σ
  Update : String → World σ → Option ε × World σ

/-- The variable `GitBackend`. -/
def GitBackend (h : Host υ σ ε) : VCSBackend υ σ ε where
  Clone := fun remote localPath branch shallow recursive w =>
    let dir := (filepath.Split localPath).1
    let r := os.MkdirAll h dir 0o755 w
    match r.1 with
    | some err => (some err, r.2)
    | none =>
      let args := ["clone"]
      let args := if branch ≠ "" then args ++ ["--branch", branch] else args
      let args := if shallow then args ++ ["--depth", "1"] else args
      let args := if recursive then args ++ ["--recursive"] else args
      let args := args ++ [h.urlString remote, localPath]
      utils.Run h "git" args r.2
  Update := fun localPath w =>
    utils.RunInDir h localPath "git" ["pull", "--ff-only"] w

/-- The variable `SubversionBackend`. -/
def SubversionBackend (h : Host υ σ ε) : VCSBackend υ σ ε where
  Clone := fun remote localPath _ignoredBranch shallow _ignoredRecursive w =>
    let dir := (filepath.Split localPath).1
    let r := os.MkdirAll h dir 0o755 w
    match r.1 with
    | some err => (some err, r.2)
    | none =>
      let args := ["checkout"]
      let args := if shallow then args ++ ["--depth", "1"] else args
      let args := args ++ [h.urlString remote, localPath]
      utils.Run h "svn" args r.2
  Update := fun localPath w =>
    utils.RunInDir h localPath "svn" ["update"] w

/-- The variable `GitsvnBackend`. -/
def GitsvnBackend (h : Host υ σ ε) : VCSBackend υ σ ε where
  Clone := fun remote localPath _ignoredBranch _ignoredShallow _ignoredRecursive w =>
    let dir := (filepath.Split localPath).1
    let r := os.MkdirAll h dir 0o755 w
    match r.1 with
    | some err => (some err, r.2)
    | none => utils.Run h "git" ["svn", "clone", h.urlString remote, localPath] r.2
  Update := fun localPath w =>
    utils.RunInDir h localPath "git" ["svn", "rebase"] w

/-- The variable `MercurialBackend`. -/
def MercurialBackend (h : Host υ σ ε) : VCSBackend υ σ ε where
  Clone := fun remote localPath _ignoredBranch _ignoredShallow _ignoredRecursive w =>
    let dir := (filepath.Split localPath).1
    let r := os.MkdirAll h dir 0o755 w
    match r.1 with
    | some err => (some err, r.2)
    | none => utils.Run h "hg" ["clone", h.urlString remote, localPath] r.2
  Update := fun localPath w =>
    utils.RunInDir h localPath "hg" ["pull", "--update"] w

/-! ## Observing a call -/

/-- The requests a call made: what it appended to the trace of `w`. -/
def emitted (w : World σ) (r : Option ε × World σ) : List Event :=
  r.2.trace.drop w.trace.length

/-! ## Every `Clone` has one shape -/

/-- The shape shared by the four `Clone` functions: one `os.MkdirAll` on the
directory part of `localPath`; its error is returned at once, otherwise
`inv` is run and its verdict returned. -/
def cloneShape (h : Host υ σ ε) (localPath : String) (inv : Invocation) (w : World σ) :
    Option ε × World σ :=
  let dir := (filepath.Split localPath).1
  let m := h.MkdirAll dir 0o755 w.state
  match m.1 with
  | some err => (some err, { state := m.2, trace := w.trace ++ [Event.MkdirAll dir 0o755] })
  | none =>
    let r := h.Run inv m.2
    (r.1, { state := r.2, trace := w.trace ++ [Event.MkdirAll dir 0o755, Event.Run inv] })

/-- The argument list of `git clone` as the table of section 4.1 gives it. -/
def gitCloneArgsSpec (remote localPath branch : String) (shallow recursive : Bool) :
    List String :=
  ["clone"] ++ (if branch ≠ "" then ["--branch", branch] else [])
    ++ (if shallow then ["--depth", "1"] else [])
    ++ (if recursive then ["--recursive"] else [])
    ++ [remote, localPath]

/-- The argument list of `svn checkout` as the table of section 4.1 gives it. -/
def svnCloneArgsSpec (remote localPath : String) (shallow : Bool) : List String :=
  ["checkout"] ++ (if shallow then ["--depth", "1"] else []) ++ [remote, localPath]

end

/-- The external-tool invocations among some requests, in order. -/
def invocations : List Event → List Invocation
  | [] => []
  | Event.Run inv :: es => inv :: invocations es
  | Event.MkdirAll _ _ :: es => invocations es

/-- The directory-creation requests among some requests, in order. -/
def mkdirRequests : List Event → List String
  | [] => []
  | Event.MkdirAll path _ :: es => path :: mkdirRequests es
  | Event.Run _ :: es => mkdirRequests es

/-! ## A concrete host

Remotes are their own string form.  The host state counts the requests
answered.  `os.MkdirAll` fails on the empty path (as the real one does) and
under `/proc/`; a tool fails when it is asked to work on the remote
`https://example.com/missing`. -/

/-- A small host to run the backends on. -/
def exampleHost : Host String Nat String where
  urlString := fun u => u
  MkdirAll := fun path _ n =>
    if path = "" ∨ path = "/proc/" then (some ("mkdir " ++ path ++ ": failed"), n + 1)
    else (none, n + 1)
  Run := fun inv n =>
    if "https://example.com/missing" ∈ inv.args then (some "exit status 128", n + 1)
    else (none, n + 1)

/-- The world before any request. -/
def exampleWorld : World Nat := { state := 0, trace := [] }

/-! ## Facts about `filepath.Split` -/

namespace filepath

theorem splitScan_le (path : List Char) (i : Nat) : splitScan path i ≤ i := by
  induction i with
  | zero => simp [splitScan]
  | succ i ih =>
    simp only [splitScan]
    split
    · exact le_rfl
    · exact Nat.le_succ_of_le ih

theorem splitScan_eq_self_iff (path : List Char) (i : Nat) :
    splitScan path (i + 1) = i + 1 ↔ IsPathSeparator (path.getD i ' ') = true := by
  simp only [splitScan]
  constructor
  · intro h
    by_contra hs
    rw [if_neg hs] at h
    have := splitScan_le path i
    omega
  · intro h
    rw [if_pos h]

theorem splitScan_after (path : List Char) (i j : Nat) (h1 : splitScan path i ≤ j)
    (h2 : j < i) : IsPathSeparator (path.getD j ' ') = false := by
  induction i with
  | zero => omega
  | succ i ih =>
    simp only [splitScan] at h1
    by_cases hs : IsPathSeparator (path.getD i ' ') = true
    · rw [if_pos hs] at h1; omega
    · rw [if_neg hs] at h1
      by_cases hj : j = i
      · subst hj; simpa using hs
      · exact ih h1 (by omega)

theorem splitScan_before (path : List Char) (i : Nat) (h : 0 < splitScan path i) :
    IsPathSeparator (path.getD (splitScan path i - 1) ' ') = true := by
  induction i with
  | zero => simp [splitScan] at h
  | succ i ih =>
    simp only [splitScan] at h ⊢
    by_cases hs : IsPathSeparator (path.getD i ' ') = true
    · rw [if_pos hs]; simpa using hs
    · rw [if_neg hs] at h ⊢
      exact ih h

theorem Split_append (path : String) : (Split path).1 ++ (Split path).2 = path := by
  simp only [Split]
  apply String.ext
  simp [String.data_append]

theorem Split_file_no_separator (path : String) :
    ∀ c ∈ (Split path).2.data, c ≠ Separator := by
  intro c hc
  simp only [Split] at hc
  obtain ⟨n, hn, rfl⟩ := List.mem_iff_getElem.mp hc
  simp only [List.getElem_drop]
  have hlen : splitScan path.data path.data.length + n < path.data.length := by
    simp only [List.length_drop] at hn
    omega
  have := splitScan_after path.data path.data.length
    (splitScan path.data path.data.length + n) (by omega) hlen
  rw [List.getD_eq_getElem _ _ hlen] at this
  simpa [IsPathSeparator] using this

theorem Split_dir_ends (path : String) :
    (Split path).1 = "" ∨ (Split path).1.data.getLast? = some Separator := by
  simp only [Split]
  rcases Nat.eq_zero_or_pos (splitScan path.data path.data.length) with h0 | hpos
  · left; rw [h0]; rfl
  · right
    have hle := splitScan_le path.data path.data.length
    have hs := splitScan_before path.data path.data.length hpos
    have hlt : splitScan path.data path.data.length - 1 < path.data.length := by omega
    rw [List.getD_eq_getElem _ _ hlt] at hs
    rw [List.getLast?_eq_getElem?]
    simp only [List.length_take, min_eq_left hle]
    rw [List.getElem?_take_of_lt (by omega), List.getElem?_eq_getElem hlt]
    simpa [IsPathSeparator] using hs

theorem Split_dir_eq_self_iff (path : String) :
    (Split path).1 = path ↔ (path = "" ∨ path.data.getLast? = some Separator) := by
  have hle := splitScan_le path.data path.data.length
  have key : (Split path).1 = path ↔ splitScan path.data path.data.length = path.data.length := by
    simp only [Split]
    constructor
    · intro h
      have h2 := congrArg (fun s => s.data.length) h
      simp only [List.length_take] at h2
      omega
    · intro h
      rw [h, List.take_length]
  rw [key]
  rcases path with ⟨cs⟩
  simp only
  cases hcs : cs.length with
  | zero =>
    have : cs = [] := List.length_eq_zero.mp hcs
    subst this
    simp [splitScan]
  | succ n =>
    have hne : cs ≠ [] := by intro h; simp [h] at hcs
    rw [splitScan_eq_self_iff]
    have hlt : n < cs.length := by omega
    rw [List.getD_eq_getElem _ _ hlt, List.getLast?_eq_getElem?]
    simp only [hcs, Nat.add_sub_cancel, List.getElem?_eq_getElem hlt]
    constructor
    · intro h; right; simpa [IsPathSeparator] using h
    · rintro (h | h)
      · exact absurd (congrArg String.data h) (by simpa using hne)
      · simpa [IsPathSeparator] using h

end filepath

/-! ## The backends against the common shape -/

section
variable {υ σ ε : Type}

theorem GitBackend_Clone_shape (h : Host υ σ ε) (remote : υ) (localPath branch : String)
    (shallow recursive : Bool) (w : World σ) :
    (GitBackend h).Clone remote localPath branch shallow recursive w
      = cloneShape h localPath
          ⟨none, "git", gitCloneArgsSpec (h.urlString remote) localPath branch shallow recursive⟩
          w := by
  simp only [GitBackend, cloneShape, os.MkdirAll, utils.Run, utils.exec, gitCloneArgsSpec]
  cases h.MkdirAll (filepath.Split localPath).1 0o755 w.state with
  | mk e s =>
    cases e with
    | some err => rfl
    | none =>
      by_cases hb : branch = "" <;> cases shallow <;> cases recursive <;> simp [hb]

theorem SubversionBackend_Clone_shape (h : Host υ σ ε) (remote : υ)
    (localPath branch : String) (shallow recursive : Bool) (w : World σ) :
    (SubversionBackend h).Clone remote localPath branch shallow recursive w
      = cloneShape h localPath
          ⟨none, "svn", svnCloneArgsSpec (h.urlString remote) localPath shallow⟩ w := by
  simp only [SubversionBackend, cloneShape, os.MkdirAll, utils.Run, utils.exec,
    svnCloneArgsSpec]
  cases h.MkdirAll (filepath.Split localPath).1 0o755 w.state with
  | mk e s =>
    cases e with
    | some err => rfl
    | none => cases shallow <;> simp

theorem GitsvnBackend_Clone_shape (h : Host υ σ ε) (remote : υ)
    (localPath branch : String) (shallow recursive : Bool) (w : World σ) :
    (GitsvnBackend h).Clone remote localPath branch shallow recursive w
      = cloneShape h localPath
          ⟨none, "git", ["svn", "clone", h.urlString remote, localPath]⟩ w := by
  simp only [GitsvnBackend, cloneShape, os.MkdirAll, utils.Run, utils.exec]
  cases h.MkdirAll (filepath.Split localPath).1 0o755 w.state with
  | mk e s => cases e <;> simp

theorem MercurialBackend_Clone_shape (h : Host υ σ ε) (remote : υ)
    (localPath branch : String) (shallow recursive : Bool) (w : World σ) :
    (MercurialBackend h).Clone remote localPath branch shallow recursive w
      = cloneShape h localPath ⟨none, "hg", ["clone", h.urlString remote, localPath]⟩ w := by
  simp only [MercurialBackend, cloneShape, os.MkdirAll, utils.Run, utils.exec]
  cases h.MkdirAll (filepath.Split localPath).1 0o755 w.state with
  | mk e s => cases e <;> simp

theorem emitted_append (w : World σ) (x : Option ε) (s : σ) (es : List Event) :
    emitted w (x, ({ state := s, trace := w.trace ++ es } : World σ)) = es := by
  simp [emitted]

/-- What a `Clone` does when the directory cannot be created. -/
theorem cloneShape_mkdir_failed (h : Host υ σ ε) (localPath : String) (inv : Invocation)
    (w : World σ) (err : ε)
    (hm : (h.MkdirAll (filepath.Split localPath).1 0o755 w.state).1 = some err) :
    cloneShape h localPath inv w
      = (some err, { state := (h.MkdirAll (filepath.Split localPath).1 0o755 w.state).2,
                     trace := w.trace ++ [Event.MkdirAll (filepath.Split localPath).1 0o755] }) := by
  simp only [cloneShape, hm]

/-- What a `Clone` does when the directory has been created. -/
theorem cloneShape_mkdir_ok (h : Host υ σ ε) (localPath : String) (inv : Invocation)
    (w : World σ)
    (hm : (h.MkdirAll (filepath.Split localPath).1 0o755 w.state).1 = none) :
    cloneShape h localPath inv w
      = ((h.Run inv (h.MkdirAll (filepath.Split localPath).1 0o755 w.state).2).1,
         { state := (h.Run inv (h.MkdirAll (filepath.Split localPath).1 0o755 w.state).2).2,
           trace := w.trace ++ [Event.MkdirAll (filepath.Split localPath).1 0o755,
             Event.Run inv] }) := by
  simp only [cloneShape, hm]

/-- What an `Update` does. -/
theorem RunInDir_eq (h : Host υ σ ε) (dir command : String) (args : List String)
    (w : World σ) :
    utils.RunInDir h dir command args w
      = ((h.Run ⟨some dir, command, args⟩ w.state).1,
         { state := (h.Run ⟨some dir, command, args⟩ w.state).2,
           trace := w.trace ++ [Event.Run ⟨some dir, command, args⟩] }) := rfl

end

section
variable {υ σ ε : Type}

/-- Each backend's `Clone` is `cloneShape` at an invocation without working
directory. -/
theorem backend_Clone_shape (h : Host υ σ ε) (b : VCSBackend υ σ ε)
    (hb : b ∈ [GitBackend h, SubversionBackend h, GitsvnBackend h, MercurialBackend h])
    (remote : υ) (localPath branch : String) (shallow recursive : Bool) :
    ∃ inv : Invocation, inv.dir = none ∧
      ∀ w, b.Clone remote localPath branch shallow recursive w = cloneShape h localPath inv w := by
  simp only [List.mem_cons, List.mem_singleton, List.not_mem_nil, or_false] at hb
  rcases hb with rfl | rfl | rfl | rfl
  · exact ⟨_, rfl, GitBackend_Clone_shape h remote localPath branch shallow recursive⟩
  · exact ⟨_, rfl, SubversionBackend_Clone_shape h remote localPath branch shallow recursive⟩
  · exact ⟨_, rfl, GitsvnBackend_Clone_shape h remote localPath branch shallow recursive⟩
  · exact ⟨_, rfl, MercurialBackend_Clone_shape h remote localPath branch shallow recursive⟩

/-- Each backend's `Update` is one invocation inside `localPath`. -/
theorem backend_Update_shape (h : Host υ σ ε) (b : VCSBackend υ σ ε)
    (hb : b ∈ [GitBackend h, SubversionBackend h, GitsvnBackend h, MercurialBackend h])
    (localPath : String) :
    ∃ inv : Invocation, inv.dir = some localPath ∧
      ∀ w, b.Update localPath w
        = ((h.Run inv w.state).1,
           { state := (h.Run inv w.state).2, trace := w.trace ++ [Event.Run inv] }) := by
  simp only [List.mem_cons, List.mem_singleton, List.not_mem_nil, or_false] at hb
  rcases hb with rfl | rfl | rfl | rfl
  · exact ⟨⟨some localPath, "git", ["pull", "--ff-only"]⟩, rfl, fun _ => rfl⟩
  · exact ⟨⟨some localPath, "svn", ["update"]⟩, rfl, fun _ => rfl⟩
  · exact ⟨⟨some localPath, "git", ["svn", "rebase"]⟩, rfl, fun _ => rfl⟩
  · exact ⟨⟨some localPath, "hg", ["pull", "--update"]⟩, rfl, fun _ => rfl⟩

theorem emitted_cloneShape_ok (h : Host υ σ ε) (localPath : String) (inv : Invocation)
    (w : World σ)
    (hm : (h.MkdirAll (filepath.Split localPath).1 0o755 w.state).1 = none) :
    emitted w (cloneShape h localPath inv w)
      = [Event.MkdirAll (filepath.Split localPath).1 0o755, Event.Run inv] := by
  rw [cloneShape_mkdir_ok h localPath inv w hm, emitted_append]

theorem emitted_cloneShape_failed (h : Host υ σ ε) (localPath : String) (inv : Invocation)
    (w : World σ) (err : ε)
    (hm : (h.MkdirAll (filepath.Split localPath).1 0o755 w.state).1 = some err) :
    emitted w (cloneShape h localPath inv w)
      = [Event.MkdirAll (filepath.Split localPath).1 0o755] := by
  rw [cloneShape_mkdir_failed h localPath inv w err hm, emitted_append]

/-- Whatever the host answers, a `Clone` first asks for the directory, and
nothing after that is another directory request. -/
theorem emitted_cloneShape (h : Host υ σ ε) (localPath : String) (inv : Invocation)
    (w : World σ) :
    ∃ rest, emitted w (cloneShape h localPath inv w)
        = Event.MkdirAll (filepath.Split localPath).1 0o755 :: rest
      ∧ mkdirRequests rest = [] ∧ invocations rest = rest.map (fun _ => inv)
      ∧ rest.length ≤ 1 := by
  cases hm : (h.MkdirAll (filepath.Split localPath).1 0o755 w.state).1 with
  | none =>
    exact ⟨[Event.Run inv], emitted_cloneShape_ok h localPath inv w hm, rfl, rfl, le_rfl⟩
  | some err =>
    exact ⟨[], emitted_cloneShape_failed h localPath inv w err hm, rfl, rfl, Nat.zero_le _⟩

end

/-! ## The claims -/

section
variable {υ σ ε : Type}

/-- C1: when the directory has been created, `GitBackend.Clone` makes exactly
one invocation, of the program `git` without working directory, with the
arguments `clone`, then `--branch <branch>` if the branch is not empty, then
`--depth 1` if shallow, then `--recursive` if recursive, then the string form
of the remote and the local path. -/
theorem GitBackend_Clone_invocation (h : Host υ σ ε) (remote : υ)
    (localPath branch : String) (shallow recursive : Bool) (w : World σ)
    (hm : (h.MkdirAll (filepath.Split localPath).1 0o755 w.state).1 = none) :
    invocations (emitted w ((GitBackend h).Clone remote localPath branch shallow recursive w))
      = [{ dir := none, command := "git",
           args := ["clone"] ++ (if branch ≠ "" then ["--branch", branch] else [])
             ++ (if shallow then ["--depth", "1"] else [])
             ++ (if recursive then ["--recursive"] else [])
             ++ [h.urlString remote, localPath] }] := by
  rw [GitBackend_Clone_shape, emitted_cloneShape_ok h localPath _ w hm]
  rfl

theorem GitBackend_Clone_invocation_witness :
    (exampleHost.MkdirAll (filepath.Split "/tmp/ghq/repo").1 0o755 exampleWorld.state).1 = none
    ∧ invocations (emitted exampleWorld ((GitBackend exampleHost).Clone
        "https://example.com/git/repo" "/tmp/ghq/repo" "develop" true true exampleWorld))
      = [{ dir := none, command := "git",
           args := ["clone", "--branch", "develop", "--depth", "1", "--recursive",
             "https://example.com/git/repo", "/tmp/ghq/repo"] }] :=
  ⟨by decide,
   GitBackend_Clone_invocation exampleHost "https://example.com/git/repo" "/tmp/ghq/repo"
     "develop" true true exampleWorld (by decide)⟩

/-- C2: when the directory has been created, `SubversionBackend.Clone` makes
exactly one invocation, of the program `svn` without working directory, with
the arguments `checkout`, then `--depth 1` if shallow, then the string form of
the remote and the local path; the whole call is the same for every branch and
every value of the recursive flag. -/
theorem SubversionBackend_Clone_invocation (h : Host υ σ ε) (remote : υ)
    (localPath branch : String) (shallow recursive : Bool) (w : World σ)
    (hm : (h.MkdirAll (filepath.Split localPath).1 0o755 w.state).1 = none) :
    invocations
        (emitted w ((SubversionBackend h).Clone remote localPath branch shallow recursive w))
      = [{ dir := none, command := "svn",
           args := ["checkout"] ++ (if shallow then ["--depth", "1"] else [])
             ++ [h.urlString remote, localPath] }]
    ∧ ∀ (branch' : String) (recursive' : Bool),
        (SubversionBackend h).Clone remote localPath branch' shallow recursive' w
          = (SubversionBackend h).Clone remote localPath branch shallow recursive w := by
  refine ⟨?_, fun _ _ => rfl⟩
  rw [SubversionBackend_Clone_shape, emitted_cloneShape_ok h localPath _ w hm]
  rfl

theorem SubversionBackend_Clone_invocation_witness :
    (exampleHost.MkdirAll (filepath.Split "/tmp/ghq/repo").1 0o755 exampleWorld.state).1 = none
    ∧ (invocations (emitted exampleWorld ((SubversionBackend exampleHost).Clone
        "https://example.com/svn/repo" "/tmp/ghq/repo" "develop" true true exampleWorld))
      = [{ dir := none, command := "svn",
           args := ["checkout", "--depth", "1", "https://example.com/svn/repo",
             "/tmp/ghq/repo"] }]
    ∧ ∀ (branch' : String) (recursive' : Bool),
        (SubversionBackend exampleHost).Clone "https://example.com/svn/repo" "/tmp/ghq/repo"
            branch' true recursive' exampleWorld
          = (SubversionBackend exampleHost).Clone "https://example.com/svn/repo"
              "/tmp/ghq/repo" "develop" true true exampleWorld) :=
  ⟨by decide,
   SubversionBackend_Clone_invocation exampleHost "https://example.com/svn/repo"
     "/tmp/ghq/repo" "develop" true true exampleWorld (by decide)⟩

/-- C3: when the directory has been created, `GitsvnBackend.Clone` makes exactly
one invocation, `git svn clone <remote> <local>`, and `MercurialBackend.Clone`
exactly one, `hg clone <remote> <local>`, for every branch, shallow flag and
recursive flag; what each returns is what the process runner answered to that
invocation, so no option value produces an error of its own. -/
theorem Gitsvn_Mercurial_Clone_invocation (h : Host υ σ ε) (remote : υ)
    (localPath branch : String) (shallow recursive : Bool) (w : World σ)
    (hm : (h.MkdirAll (filepath.Split localPath).1 0o755 w.state).1 = none) :
    (invocations
        (emitted w ((GitsvnBackend h).Clone remote localPath branch shallow recursive w))
      = [{ dir := none, command := "git",
           args := ["svn", "clone", h.urlString remote, localPath] }]
     ∧ ((GitsvnBackend h).Clone remote localPath branch shallow recursive w).1
      = (h.Run { dir := none, command := "git",
                 args := ["svn", "clone", h.urlString remote, localPath] }
          (h.MkdirAll (filepath.Split localPath).1 0o755 w.state).2).1)
    ∧ (invocations
        (emitted w ((MercurialBackend h).Clone remote localPath branch shallow recursive w))
      = [{ dir := none, command := "hg", args := ["clone", h.urlString remote, localPath] }]
     ∧ ((MercurialBackend h).Clone remote localPath branch shallow recursive w).1
      = (h.Run { dir := none, command := "hg",
                 args := ["clone", h.urlString remote, localPath] }
          (h.MkdirAll (filepath.Split localPath).1 0o755 w.state).2).1) := by
  refine ⟨⟨?_, ?_⟩, ⟨?_, ?_⟩⟩
  · rw [GitsvnBackend_Clone_shape, emitted_cloneShape_ok h localPath _ w hm]; rfl
  · rw [GitsvnBackend_Clone_shape, cloneShape_mkdir_ok h localPath _ w hm]
  · rw [MercurialBackend_Clone_shape, emitted_cloneShape_ok h localPath _ w hm]; rfl
  · rw [MercurialBackend_Clone_shape, cloneShape_mkdir_ok h localPath _ w hm]

theorem Gitsvn_Mercurial_Clone_invocation_witness :
    (exampleHost.MkdirAll (filepath.Split "/tmp/ghq/repo").1 0o755 exampleWorld.state).1 = none
    ∧ (invocations (emitted exampleWorld ((GitsvnBackend exampleHost).Clone
          "https://example.com/svn/repo" "/tmp/ghq/repo" "develop" true true exampleWorld))
        = [{ dir := none, command := "git",
             args := ["svn", "clone", "https://example.com/svn/repo", "/tmp/ghq/repo"] }]
      ∧ ((GitsvnBackend exampleHost).Clone
          "https://example.com/svn/repo" "/tmp/ghq/repo" "develop" true true exampleWorld).1
        = none)
    ∧ (invocations (emitted exampleWorld ((MercurialBackend exampleHost).Clone
          "https://example.com/svn/repo" "/tmp/ghq/repo" "develop" true true exampleWorld))
        = [{ dir := none, command := "hg",
             args := ["clone", "https://example.com/svn/repo", "/tmp/ghq/repo"] }]
      ∧ ((MercurialBackend exampleHost).Clone
          "https://example.com/svn/repo" "/tmp/ghq/repo" "develop" true true exampleWorld).1
        = none) :=
  ⟨by decide,
   Gitsvn_Mercurial_Clone_invocation exampleHost "https://example.com/svn/repo"
     "/tmp/ghq/repo" "develop" true true exampleWorld (by decide)⟩

/-- C5: for each of the four backends, if `os.MkdirAll` on the directory of the
local path fails with `err`, then `Clone` makes no invocation and returns
`err`. -/
theorem Clone_mkdir_failure (h : Host υ σ ε) (b : VCSBackend υ σ ε)
    (hb : b ∈ [GitBackend h, SubversionBackend h, GitsvnBackend h, MercurialBackend h])
    (remote : υ) (localPath branch : String) (shallow recursive : Bool) (w : World σ)
    (err : ε)
    (hm : (h.MkdirAll (filepath.Split localPath).1 0o755 w.state).1 = some err) :
    invocations (emitted w (b.Clone remote localPath branch shallow recursive w)) = []
    ∧ (b.Clone remote localPath branch shallow recursive w).1 = some err := by
  obtain ⟨inv, -, hc⟩ := backend_Clone_shape h b hb remote localPath branch shallow recursive
  rw [hc w]
  constructor
  · rw [emitted_cloneShape_failed h localPath inv w err hm]; rfl
  · rw [cloneShape_mkdir_failed h localPath inv w err hm]

theorem Clone_mkdir_failure_witness :
    GitBackend exampleHost ∈ [GitBackend exampleHost, SubversionBackend exampleHost,
      GitsvnBackend exampleHost, MercurialBackend exampleHost]
    ∧ (exampleHost.MkdirAll (filepath.Split "/proc/repo").1 0o755 exampleWorld.state).1
      = some "mkdir /proc/: failed"
    ∧ invocations (emitted exampleWorld ((GitBackend exampleHost).Clone
        "https://example.com/git/repo" "/proc/repo" "develop" true true exampleWorld)) = []
    ∧ ((GitBackend exampleHost).Clone
        "https://example.com/git/repo" "/proc/repo" "develop" true true exampleWorld).1
      = some "mkdir /proc/: failed" :=
  ⟨List.mem_cons_self _ _, by decide,
   Clone_mkdir_failure exampleHost (GitBackend exampleHost) (List.mem_cons_self _ _)
     "https://example.com/git/repo" "/proc/repo" "develop" true true exampleWorld
     "mkdir /proc/: failed" (by decide)⟩

/-- C6: for each of the four backends the verdict of the process runner is
what the call returns: when the directory has been created, `Clone` makes one
invocation and returns what the runner answered to it, an error or none; and
`Update` makes one invocation and returns what the runner answered to it. -/
theorem runner_verdict_returned (h : Host υ σ ε) (b : VCSBackend υ σ ε)
    (hb : b ∈ [GitBackend h, SubversionBackend h, GitsvnBackend h, MercurialBackend h])
    (remote : υ) (localPath branch : String) (shallow recursive : Bool) (w : World σ) :
    ((h.MkdirAll (filepath.Split localPath).1 0o755 w.state).1 = none →
      ∃ inv, invocations (emitted w (b.Clone remote localPath branch shallow recursive w))
          = [inv]
        ∧ (b.Clone remote localPath branch shallow recursive w).1
          = (h.Run inv (h.MkdirAll (filepath.Split localPath).1 0o755 w.state).2).1)
    ∧ ∃ inv, invocations (emitted w (b.Update localPath w)) = [inv]
        ∧ (b.Update localPath w).1 = (h.Run inv w.state).1 := by
  constructor
  · intro hm
    obtain ⟨inv, -, hc⟩ := backend_Clone_shape h b hb remote localPath branch shallow recursive
    refine ⟨inv, ?_, ?_⟩
    · rw [hc w, emitted_cloneShape_ok h localPath inv w hm]; rfl
    · rw [hc w, cloneShape_mkdir_ok h localPath inv w hm]
  · obtain ⟨inv, -, hu⟩ := backend_Update_shape h b hb localPath
    refine ⟨inv, ?_, ?_⟩
    · rw [hu w, emitted_append]; rfl
    · rw [hu w]

theorem runner_verdict_returned_witness :
    SubversionBackend exampleHost ∈ [GitBackend exampleHost, SubversionBackend exampleHost,
      GitsvnBackend exampleHost, MercurialBackend exampleHost]
    ∧ (exampleHost.MkdirAll (filepath.Split "/tmp/ghq/missing").1 0o755 exampleWorld.state).1
      = none
    ∧ ((SubversionBackend exampleHost).Clone "https://example.com/missing" "/tmp/ghq/missing"
        "" false false exampleWorld).1 = some "exit status 128"
    ∧ ((SubversionBackend exampleHost).Update "/tmp/ghq/missing" exampleWorld).1 = none
    ∧ (((exampleHost.MkdirAll (filepath.Split "/tmp/ghq/missing").1 0o755
          exampleWorld.state).1 = none →
        ∃ inv, invocations (emitted exampleWorld ((SubversionBackend exampleHost).Clone
              "https://example.com/missing" "/tmp/ghq/missing" "" false false exampleWorld))
            = [inv]
          ∧ ((SubversionBackend exampleHost).Clone "https://example.com/missing"
              "/tmp/ghq/missing" "" false false exampleWorld).1
            = (exampleHost.Run inv (exampleHost.MkdirAll
                (filepath.Split "/tmp/ghq/missing").1 0o755 exampleWorld.state).2).1)
      ∧ ∃ inv, invocations (emitted exampleWorld
            ((SubversionBackend exampleHost).Update "/tmp/ghq/missing" exampleWorld)) = [inv]
          ∧ ((SubversionBackend exampleHost).Update "/tmp/ghq/missing" exampleWorld).1
            = (exampleHost.Run inv exampleWorld.state).1) :=
  ⟨by simp, by decide, by decide, by decide,
   runner_verdict_returned exampleHost (SubversionBackend exampleHost) (by simp)
     "https://example.com/missing" "/tmp/ghq/missing" "" false false exampleWorld⟩

/-- C8: for each of the four backends, a `Clone` whose directory has been created
makes exactly one invocation and an `Update` makes exactly one invocation,
whatever the process runner answers. -/
theorem one_invocation_per_call (h : Host υ σ ε) (b : VCSBackend υ σ ε)
    (hb : b ∈ [GitBackend h, SubversionBackend h, GitsvnBackend h, MercurialBackend h])
    (remote : υ) (localPath branch : String) (shallow recursive : Bool) (w : World σ) :
    ((h.MkdirAll (filepath.Split localPath).1 0o755 w.state).1 = none →
      (invocations (emitted w (b.Clone remote localPath branch shallow recursive w))).length
        = 1)
    ∧ (invocations (emitted w (b.Update localPath w))).length = 1 := by
  constructor
  · intro hm
    obtain ⟨inv, -, hc⟩ := backend_Clone_shape h b hb remote localPath branch shallow recursive
    rw [hc w, emitted_cloneShape_ok h localPath inv w hm]; rfl
  · obtain ⟨inv, -, hu⟩ := backend_Update_shape h b hb localPath
    rw [hu w, emitted_append]; rfl

theorem one_invocation_per_call_witness :
    MercurialBackend exampleHost ∈ [GitBackend exampleHost, SubversionBackend exampleHost,
      GitsvnBackend exampleHost, MercurialBackend exampleHost]
    ∧ (exampleHost.MkdirAll (filepath.Split "/tmp/ghq/missing").1 0o755 exampleWorld.state).1
      = none
    ∧ (invocations (emitted exampleWorld ((MercurialBackend exampleHost).Clone
        "https://example.com/missing" "/tmp/ghq/missing" "" true false exampleWorld))).length
      = 1
    ∧ (invocations (emitted exampleWorld
        ((MercurialBackend exampleHost).Update "/tmp/ghq/missing" exampleWorld))).length = 1 :=
  ⟨by simp, by decide,
   (one_invocation_per_call exampleHost (MercurialBackend exampleHost) (by simp)
     "https://example.com/missing" "/tmp/ghq/missing" "" true false exampleWorld).1
       (by decide),
   (one_invocation_per_call exampleHost (MercurialBackend exampleHost) (by simp)
     "https://example.com/missing" "/tmp/ghq/missing" "" true false exampleWorld).2⟩

/-- C10: the argument list `GitBackend.Clone` hands to `git` determines its
inputs: if two calls whose directory has been created invoke `git` with equal
argument lists, then the string forms of the remotes, the local paths, the
branches, the shallow flags and the recursive flags are equal. -/
theorem GitBackend_Clone_args_injective (h : Host υ σ ε) (remote remote' : υ)
    (localPath localPath' branch branch' : String)
    (shallow shallow' recursive recursive' : Bool) (w w' : World σ)
    (hm : (h.MkdirAll (filepath.Split localPath).1 0o755 w.state).1 = none)
    (hm' : (h.MkdirAll (filepath.Split localPath').1 0o755 w'.state).1 = none)
    (heq : (invocations
          (emitted w ((GitBackend h).Clone remote localPath branch shallow recursive w))).map
          Invocation.args
        = (invocations (emitted w'
            ((GitBackend h).Clone remote' localPath' branch' shallow' recursive' w'))).map
          Invocation.args) :
    h.urlString remote = h.urlString remote' ∧ localPath = localPath' ∧ branch = branch'
      ∧ shallow = shallow' ∧ recursive = recursive' := by
  rw [GitBackend_Clone_shape, GitBackend_Clone_shape, emitted_cloneShape_ok h localPath _ w hm,
    emitted_cloneShape_ok h localPath' _ w' hm'] at heq
  simp only [invocations, List.map_cons, List.map_nil, List.cons.injEq, and_true,
    gitCloneArgsSpec] at heq
  by_cases hb : branch = "" <;> by_cases hb' : branch' = "" <;>
    cases shallow <;> cases shallow' <;> cases recursive <;> cases recursive' <;>
    simp_all

theorem GitBackend_Clone_args_injective_witness :
    (exampleHost.MkdirAll (filepath.Split "/tmp/ghq/repo").1 0o755 exampleWorld.state).1 = none
    ∧ (invocations (emitted exampleWorld ((GitBackend exampleHost).Clone
          "--depth" "/tmp/ghq/repo" "--recursive" false true exampleWorld))).map Invocation.args
      = (invocations (emitted exampleWorld ((GitBackend exampleHost).Clone
          "--depth" "/tmp/ghq/repo" "--recursive" false true exampleWorld))).map Invocation.args
    ∧ (exampleHost.urlString "--depth" = exampleHost.urlString "--depth"
      ∧ "/tmp/ghq/repo" = "/tmp/ghq/repo" ∧ "--recursive" = "--recursive"
      ∧ false = false ∧ true = true) :=
  ⟨by decide, rfl,
   GitBackend_Clone_args_injective exampleHost "--depth" "--depth" "/tmp/ghq/repo"
     "/tmp/ghq/repo" "--recursive" "--recursive" false false true true exampleWorld
     exampleWorld (by decide) (by decide) rfl⟩

/-- C4: for every local path, host and world, `Update` on each of the four
backends makes one invocation whose working directory is the local path and
whose program and argument list are fixed: `git pull --ff-only`, `svn update`,
`git svn rebase`, `hg pull --update`.  The local path is not passed as an
argument: the lists are constants, and a local path of the form the spec gives
(`root/host/...`, so with a separator in it) is not an element of the list. -/
theorem Update_invocation (h : Host υ σ ε) (localPath : String) (w : World σ) :
    emitted w ((GitBackend h).Update localPath w)
      = [Event.Run { dir := some localPath, command := "git", args := ["pull", "--ff-only"] }]
    ∧ emitted w ((SubversionBackend h).Update localPath w)
      = [Event.Run { dir := some localPath, command := "svn", args := ["update"] }]
    ∧ emitted w ((GitsvnBackend h).Update localPath w)
      = [Event.Run { dir := some localPath, command := "git", args := ["svn", "rebase"] }]
    ∧ emitted w ((MercurialBackend h).Update localPath w)
      = [Event.Run { dir := some localPath, command := "hg", args := ["pull", "--update"] }]
    ∧ (filepath.Separator ∈ localPath.data →
        ∀ b ∈ [GitBackend h, SubversionBackend h, GitsvnBackend h, MercurialBackend h],
          ∀ inv ∈ invocations (emitted w (b.Update localPath w)), localPath ∉ inv.args) := by
  refine ⟨?_, ?_, ?_, ?_, ?_⟩
  · exact emitted_append w _ _ _
  · exact emitted_append w _ _ _
  · exact emitted_append w _ _ _
  · exact emitted_append w _ _ _
  · intro hsep b hb inv hinv
    have hl : localPath ∉ ["pull", "--ff-only", "update", "svn", "rebase", "--update"] := by
      intro hmem
      simp only [List.mem_cons, List.mem_singleton, List.not_mem_nil, or_false] at hmem
      rcases hmem with rfl | rfl | rfl | rfl | rfl | rfl <;> exact absurd hsep (by decide)
    simp only [List.mem_cons, List.mem_singleton, List.not_mem_nil, or_false, not_or] at hl hb
    rcases hb with rfl | rfl | rfl | rfl
    all_goals
      simp only [GitBackend, SubversionBackend, GitsvnBackend, MercurialBackend,
        RunInDir_eq, emitted_append, invocations, List.mem_singleton] at hinv
      subst hinv
      simp [hl]

theorem Update_invocation_witness :
    filepath.Separator ∈ ("/tmp/ghq/repo" : String).data
    ∧ emitted exampleWorld ((GitBackend exampleHost).Update "/tmp/ghq/repo" exampleWorld)
      = [Event.Run { dir := some "/tmp/ghq/repo", command := "git",
                     args := ["pull", "--ff-only"] }]
    ∧ ∀ inv ∈ invocations
          (emitted exampleWorld ((GitsvnBackend exampleHost).Update "/tmp/ghq/repo" exampleWorld)),
        "/tmp/ghq/repo" ∉ inv.args :=
  ⟨by decide, (Update_invocation exampleHost "/tmp/ghq/repo" exampleWorld).1,
   (Update_invocation exampleHost "/tmp/ghq/repo" exampleWorld).2.2.2.2 (by decide)
     (GitsvnBackend exampleHost) (by simp)⟩

/-- C7: for a remote reference and a local path of the form the spec gives
(the string form of the remote and the local path each have a `/` in them)
and every value of the options, when the directory has been created the
argument list of `svn` contains neither `--branch` nor `--recursive`, and the
argument lists of `git svn` and of `hg` contain none of `--branch`, `--depth`
and `--recursive`. -/
theorem ignored_flags_absent (h : Host υ σ ε) (remote : υ) (localPath branch : String)
    (shallow recursive : Bool) (w : World σ)
    (hm : (h.MkdirAll (filepath.Split localPath).1 0o755 w.state).1 = none)
    (hr : '/' ∈ (h.urlString remote).data) (hl : filepath.Separator ∈ localPath.data) :
    ∃ svn gitsvn hg : Invocation,
      invocations
          (emitted w ((SubversionBackend h).Clone remote localPath branch shallow recursive w))
        = [svn]
      ∧ invocations
          (emitted w ((GitsvnBackend h).Clone remote localPath branch shallow recursive w))
        = [gitsvn]
      ∧ invocations
          (emitted w ((MercurialBackend h).Clone remote localPath branch shallow recursive w))
        = [hg]
      ∧ ("--branch" ∉ svn.args ∧ "--recursive" ∉ svn.args)
      ∧ ("--branch" ∉ gitsvn.args ∧ "--depth" ∉ gitsvn.args ∧ "--recursive" ∉ gitsvn.args)
      ∧ ("--branch" ∉ hg.args ∧ "--depth" ∉ hg.args ∧ "--recursive" ∉ hg.args) := by
  have hr1 : "--branch" ≠ h.urlString remote := fun e => absurd (e ▸ hr) (by decide)
  have hr2 : "--depth" ≠ h.urlString remote := fun e => absurd (e ▸ hr) (by decide)
  have hr3 : "--recursive" ≠ h.urlString remote := fun e => absurd (e ▸ hr) (by decide)
  have hl1 : "--branch" ≠ localPath := fun e => absurd (e ▸ hl) (by decide)
  have hl2 : "--depth" ≠ localPath := fun e => absurd (e ▸ hl) (by decide)
  have hl3 : "--recursive" ≠ localPath := fun e => absurd (e ▸ hl) (by decide)
  refine ⟨⟨none, "svn", svnCloneArgsSpec (h.urlString remote) localPath shallow⟩,
    ⟨none, "git", ["svn", "clone", h.urlString remote, localPath]⟩,
    ⟨none, "hg", ["clone", h.urlString remote, localPath]⟩, ?_, ?_, ?_, ?_, ?_, ?_⟩
  · rw [SubversionBackend_Clone_shape, emitted_cloneShape_ok h localPath _ w hm]; rfl
  · rw [GitsvnBackend_Clone_shape, emitted_cloneShape_ok h localPath _ w hm]; rfl
  · rw [MercurialBackend_Clone_shape, emitted_cloneShape_ok h localPath _ w hm]; rfl
  · cases shallow <;> simp [svnCloneArgsSpec, hr1, hr3, hl1, hl3]
  · simp [hr1, hr2, hr3, hl1, hl2, hl3]
  · simp [hr1, hr2, hr3, hl1, hl2, hl3]

theorem ignored_flags_absent_witness :
    (exampleHost.MkdirAll (filepath.Split "/tmp/ghq/repo").1 0o755 exampleWorld.state).1 = none
    ∧ '/' ∈ (exampleHost.urlString "https://example.com/svn/repo").data
    ∧ filepath.Separator ∈ ("/tmp/ghq/repo" : String).data
    ∧ ∃ svn gitsvn hg : Invocation,
      invocations (emitted exampleWorld ((SubversionBackend exampleHost).Clone
          "https://example.com/svn/repo" "/tmp/ghq/repo" "develop" true true exampleWorld))
        = [svn]
      ∧ invocations (emitted exampleWorld ((GitsvnBackend exampleHost).Clone
          "https://example.com/svn/repo" "/tmp/ghq/repo" "develop" true true exampleWorld))
        = [gitsvn]
      ∧ invocations (emitted exampleWorld ((MercurialBackend exampleHost).Clone
          "https://example.com/svn/repo" "/tmp/ghq/repo" "develop" true true exampleWorld))
        = [hg]
      ∧ ("--branch" ∉ svn.args ∧ "--recursive" ∉ svn.args)
      ∧ ("--branch" ∉ gitsvn.args ∧ "--depth" ∉ gitsvn.args ∧ "--recursive" ∉ gitsvn.args)
      ∧ ("--branch" ∉ hg.args ∧ "--depth" ∉ hg.args ∧ "--recursive" ∉ hg.args) :=
  ⟨by decide, by decide, by decide,
   ignored_flags_absent exampleHost "https://example.com/svn/repo" "/tmp/ghq/repo" "develop"
     true true exampleWorld (by decide) (by decide) (by decide)⟩

/-- C9: for each of the four backends and every local path, the first request of
`Clone` is one `os.MkdirAll` for the directory part of `filepath.Split(local)`,
and no later request is a directory creation, so there is exactly one and any
tool invocation comes after it.  That directory is the part of the local path
up to and including its last separator: it and the file part make up the local
path, the file part has no separator, and the directory is empty or ends in a
separator.  For a local path of the form the spec gives (`root/host/.../name`,
so not empty and not ending in a separator) it is the parent, not the local
path itself. -/
theorem Clone_directory_request (h : Host υ σ ε) (b : VCSBackend υ σ ε)
    (hb : b ∈ [GitBackend h, SubversionBackend h, GitsvnBackend h, MercurialBackend h])
    (remote : υ) (localPath branch : String) (shallow recursive : Bool) (w : World σ) :
    (∃ rest, emitted w (b.Clone remote localPath branch shallow recursive w)
        = Event.MkdirAll (filepath.Split localPath).1 0o755 :: rest
      ∧ mkdirRequests rest = [])
    ∧ (filepath.Split localPath).1 ++ (filepath.Split localPath).2 = localPath
    ∧ (∀ c ∈ (filepath.Split localPath).2.data, c ≠ filepath.Separator)
    ∧ ((filepath.Split localPath).1 = ""
        ∨ (filepath.Split localPath).1.data.getLast? = some filepath.Separator)
    ∧ (localPath ≠ "" → localPath.data.getLast? ≠ some filepath.Separator →
        (filepath.Split localPath).1 ≠ localPath) := by
  refine ⟨?_, filepath.Split_append localPath, filepath.Split_file_no_separator localPath,
    filepath.Split_dir_ends localPath, ?_⟩
  · obtain ⟨inv, -, hc⟩ := backend_Clone_shape h b hb remote localPath branch shallow recursive
    obtain ⟨rest, h1, h2, -, -⟩ := emitted_cloneShape h localPath inv w
    exact ⟨rest, by rw [hc w, h1], h2⟩
  · intro hne hend heq
    rcases (filepath.Split_dir_eq_self_iff localPath).mp heq with h0 | h1
    · exact hne h0
    · exact hend h1

theorem Clone_directory_request_witness :
    GitsvnBackend exampleHost ∈ [GitBackend exampleHost, SubversionBackend exampleHost,
      GitsvnBackend exampleHost, MercurialBackend exampleHost]
    ∧ ("/tmp/ghq/repo" : String) ≠ ""
    ∧ ("/tmp/ghq/repo" : String).data.getLast? ≠ some filepath.Separator
    ∧ (filepath.Split "/tmp/ghq/repo").1 = "/tmp/ghq/"
    ∧ (∃ rest, emitted exampleWorld ((GitsvnBackend exampleHost).Clone
          "https://example.com/svn/repo" "/tmp/ghq/repo" "" false false exampleWorld)
        = Event.MkdirAll (filepath.Split "/tmp/ghq/repo").1 0o755 :: rest
      ∧ mkdirRequests rest = [])
    ∧ (filepath.Split "/tmp/ghq/repo").1 ≠ "/tmp/ghq/repo" :=
  ⟨by simp, by decide, by decide, by decide,
   (Clone_directory_request exampleHost (GitsvnBackend exampleHost) (by simp)
     "https://example.com/svn/repo" "/tmp/ghq/repo" "" false false exampleWorld).1,
   (Clone_directory_request exampleHost (GitsvnBackend exampleHost) (by simp)
     "https://example.com/svn/repo" "/tmp/ghq/repo" "" false false exampleWorld).2.2.2.2
       (by decide) (by decide)⟩

end

end Ghq
